import Mathlib

/-
Verification of the SSDP discovery endpoint (src/common/SoapySSDPEndpoint.cpp)
against its natural-language specification.

The embedding translates the source file into Lean: time points of the
monotone clock are modelled as integers, the structured HTTP header and the
locator URL collaborators are modelled as records, and the per-handler USN
cache (a std map from USN to a pair of locator string and expiry time point)
is modelled as an association list with unique keys.  Fallible code paths
(an exception escaping a function) are modelled with Option, none standing
for the escaped exception.
-/

namespace SoapySSDP

/-- service and notify target identification string (macro SOAPY_REMOTE_TARGET). -/
def SOAPY_REMOTE_TARGET : String := "urn:schemas-pothosware-com:service:soapyRemote:1"

/-- how often search and notify packets are triggered (macro TRIGGER_TIMEOUT_SECONDS). -/
def TRIGGER_TIMEOUT_SECONDS : Int := 60

/-- the default duration of an entry in the USN cache (macro CACHE_DURATION_SECONDS). -/
def CACHE_DURATION_SECONDS : Int := 120

/-- service is active, used with multicast NOTIFY (macro NTS_ALIVE). -/
def NTS_ALIVE : String := "ssdp:alive"

/-- service stopped, used with multicast NOTIFY (macro NTS_BYEBYE). -/
def NTS_BYEBYE : String := "ssdp:byebye"

/-- Modelled from the spec: the structured header codec collaborator
(SoapyHTTPUtils) parses a datagram into a start line plus an ordered field
map; the code relies on a lookup of an absent field yielding the empty
string (it tests emptiness of USN and LOCATION to detect absence). -/
structure SoapyHTTPHeader where
  line0 : String
  fields : List (String × String)

deriving instance DecidableEq for SoapyHTTPHeader

/-- field lookup over the ordered field list, first match wins, empty string
when the field is absent. -/
def getFieldIn : List (String × String) → String → String
  | [], _ => ""
  | (n, v) :: rest, name => if n = name then v else getFieldIn rest name

/-- the getField accessor of the header codec collaborator. -/
def SoapyHTTPHeader.getField (h : SoapyHTTPHeader) (name : String) : String :=
  getFieldIn h.fields name

/-- whitespace predicate of std isspace in the C locale. -/
def isCSpace (c : Char) : Bool :=
  c = ' ' || c = '\t' || c = '\n' || c = '\x0b' || c = '\x0c' || c = '\r'

/-- leadsWith p s holds when p is an initial segment of s (helper for findSub). -/
def leadsWith : List Char → List Char → Bool
  | [], _ => true
  | _ :: _, [] => false
  | p :: ps, c :: cs => p = c && leadsWith ps cs

/-- position of the first occurrence of pat inside s (std string find),
none standing for std string npos. -/
def findSub (pat : List Char) : List Char → Option Nat
  | [] => if leadsWith pat [] then some 0 else none
  | c :: rest =>
    if leadsWith pat (c :: rest) then some 0
    else (findSub pat rest).map (· + 1)

/-- the while loop of getCacheDuration that advances valuePos over whitespace:
given the characters from position i and the value i itself, it returns the
first non-space position; none models the loop calling the std string at
accessor with an index one past the end, which raises std out_of_range. -/
def skipSpacesIn : List Char → Nat → Option Nat
  | [], _ => none
  | c :: rest, i => if isCSpace c then skipSpacesIn rest (i + 1) else some i

/-- value of a run of decimal digits, most significant first. -/
def digitsToNat : List Char → Nat → Nat
  | [], acc => acc
  | c :: rest, acc => digitsToNat rest (acc * 10 + (c.toNat - 48))

/-- semantics of std stoul on the value substring, base 10: skip C whitespace,
an optional sign, then a digit run.  none models a thrown exception, caught
by the caller: invalid_argument when there is no digit run, out_of_range
when the magnitude exceeds the maximum unsigned long.  A minus sign negates
in the unsigned result type, wrapping modulo 2 to the 64. -/
def stoulOpt (cs : List Char) : Option Nat :=
  let cs1 := cs.dropWhile isCSpace
  let signed : Bool × List Char :=
    match cs1 with
    | c :: rest =>
      if c = '-' then (true, rest)
      else if c = '+' then (false, rest)
      else (false, c :: rest)
    | [] => (false, [])
  let ds := signed.2.takeWhile Char.isDigit
  if ds.isEmpty then none
  else
    let v := digitsToNat ds 0
    if v > 18446744073709551615 then none
    else if signed.1 then some ((18446744073709551616 - v) % 18446744073709551616)
    else some v

/-- the implicit conversion of the unsigned long stoul result to the int
return type of getCacheDuration, modelled as the two complement wrap to 32
bits used by every target platform of this code. -/
def ulongToInt (v : Nat) : Int :=
  let w := v % 4294967296
  if w < 2147483648 then (w : Int) else (w : Int) - 4294967296

/-- the static getCacheDuration function: parse a max-age assignment out of
the CACHE-CONTROL field, falling back to the 120 second default.  some d is
a normal return of d; none models the uncaught std out_of_range raised by
the std string at accessor when the whitespace scan after the equals sign
runs past the end of the field value. -/
def getCacheDuration (header : SoapyHTTPHeader) : Option Int :=
  let cacheControl := (header.getField "CACHE-CONTROL").data
  if cacheControl.isEmpty then some CACHE_DURATION_SECONDS
  else
    match findSub "max-age".data cacheControl, findSub "=".data cacheControl with
    | none, _ => some CACHE_DURATION_SECONDS
    | some _, none => some CACHE_DURATION_SECONDS
    | some maxAgePos, some equalsPos =>
      if maxAgePos > equalsPos then some CACHE_DURATION_SECONDS
      else
        match skipSpacesIn (cacheControl.drop (equalsPos + 1)) (equalsPos + 1) with
        | none => none
        | some valuePos =>
          match stoulOpt (cacheControl.drop valuePos) with
          | none => some CACHE_DURATION_SECONDS
          | some v => some (ulongToInt v)

/-- Modelled from the spec: the locator parser and formatter collaborator
(SoapyURLUtils) handles a scheme, a host node and a port service. -/
structure SoapyURL where
  scheme : String
  node : String
  service : String

deriving instance DecidableEq for SoapyURL

/-- Modelled from the spec: the render-to-string side of the locator
collaborator. -/
def SoapyURL.render (u : SoapyURL) : String :=
  u.scheme ++ "://" ++ u.node ++ ":" ++ u.service

/-- the per handler discovered URL map usnToURL, a std map from USN to a pair
of locator string and expiry time point, modelled as an association list
with unique keys. -/
abbrev Cache := List (String × String × Int)

/-- lookup of a key in the USN cache (std map find). -/
def lookupUSN : Cache → String → Option (String × Int)
  | [], _ => none
  | e :: rest, k => if e.1 = k then some e.2 else lookupUSN rest k

/-- membership of a key in the USN cache (std map count against zero). -/
def hasKey (c : Cache) (k : String) : Bool :=
  (lookupUSN c k).isSome

/-- assignment through the std map index operator: replace the binding of the
key when present, append a new binding otherwise. -/
def upsert : Cache → String → String × Int → Cache
  | [], k, v => [(k, v)]
  | e :: rest, k, v => if e.1 = k then (k, v) :: rest else e :: upsert rest k v

/-- std map erase by key: drop every binding of the key. -/
def eraseKey (c : Cache) (k : String) : Cache :=
  c.filter (fun e => !(e.1 = k : Bool))

/-- the cache sweep of the handler loop: keep exactly the entries whose
expiry lies strictly after timeNow, erase the rest. -/
def sweepCache (c : Cache) (timeNow : Int) : Cache :=
  c.filter (fun e => decide (e.2.2 > timeNow))

/-- the per handler state SoapySSDPEndpointData: the address family tag, the
multicast group URL string, the two periodic trigger time points (time point
default construction makes them the epoch, modelled as 0), and the USN
cache.  The socket and thread handles carry no discovery state and are not
modelled. -/
structure HandlerData where
  ipVer : Nat
  groupURL : String
  lastTimeSearch : Int
  lastTimeNotify : Int
  usnToURL : Cache

deriving instance DecidableEq for HandlerData

/-- the shared fields of SoapySSDPEndpoint guarded by the endpoint mutex. -/
structure SharedState where
  serviceRegistered : Bool
  uuid : String
  service : String
  periodicSearchEnabled : Bool
  periodicNotifyEnabled : Bool

deriving instance DecidableEq for SharedState

/-- Modelled from the spec: the host identification collaborator (SoapyInfo)
and the time formatting helper timeNowGMT, bundled as an environment of
opaque strings. -/
structure Env where
  hostName : String
  userAgent : String
  dateGMT : String

deriving instance DecidableEq for Env

/-- inner loop of getServerURLs over one handler cache: skip an entry whose
key is already present when the handler family does not match, otherwise
assign through the map index operator. -/
def mergeInner (ipVerMatch : Bool) : Cache → Cache → Cache
  | acc, [] => acc
  | acc, e :: rest =>
    mergeInner ipVerMatch
      (if hasKey acc e.1 && !ipVerMatch then acc else upsert acc e.1 e.2) rest

/-- the body of the outer handler loop of getServerURLs: skip the handler
entirely when only is set and its family does not match, otherwise merge its
cache. -/
def mergeStep (ipVer : Nat) (only : Bool) (acc : Cache) (data : HandlerData) : Cache :=
  let ipVerMatch : Bool := data.ipVer = ipVer
  if only && !ipVerMatch then acc
  else mergeInner ipVerMatch acc data.usnToURL

/-- the merged map usnPrefToURL built by getServerURLs before values are
extracted: fold the handlers in order. -/
def mergedMap (handlers : List HandlerData) (ipVer : Nat) (only : Bool) : Cache :=
  handlers.foldl (mergeStep ipVer only) []

/-- SoapySSDPEndpoint getServerURLs: the filtered locator strings, one per
USN of the merged map. -/
def getServerURLs (handlers : List HandlerData) (ipVer : Nat) (only : Bool) : List String :=
  (mergedMap handlers ipVer only).map (fun e => e.2.1)

/-- an outbound datagram: the header together with the destination address
handed to sendto. -/
abbrev Msg := SoapyHTTPHeader × String

section Handlers

/- Modelled from the spec: parseURL is the parse-from-string side of the
locator collaborator; the code parses the stored group URL, the datagram
source address and the LOCATION field value through it.  All theorems hold
for every parser. -/
variable (parseURL : String → SoapyURL)

/-- SoapySSDPEndpoint sendSearchHeader: build the M-SEARCH header, send it
to the multicast group and stamp lastTimeSearch with the current time. -/
def sendSearchHeader (env : Env) (d : HandlerData) (now : Int) : HandlerData × Msg :=
  let hostURL := { parseURL d.groupURL with scheme := "" }
  let header : SoapyHTTPHeader :=
    { line0 := "M-SEARCH * HTTP/1.1",
      fields := [("HOST", hostURL.render),
                 ("MAN", "\"ssdp:discover\""),
                 ("MX", "2"),
                 ("ST", SOAPY_REMOTE_TARGET),
                 ("USER-AGENT", env.userAgent)] }
  ({ d with lastTimeSearch := now }, (header, d.groupURL))

/-- SoapySSDPEndpoint sendNotifyHeader: nothing is sent when no service is
registered; otherwise build the NOTIFY header (the alive variant carries
CACHE-CONTROL and LOCATION, the byebye variant omits them), send it to the
multicast group and stamp lastTimeNotify. -/
def sendNotifyHeader (st : SharedState) (env : Env) (d : HandlerData) (nts : String)
    (now : Int) : HandlerData × List Msg :=
  if !st.serviceRegistered then (d, [])
  else
    let hostURL := { parseURL d.groupURL with scheme := "" }
    let header : SoapyHTTPHeader :=
      { line0 := "NOTIFY * HTTP/1.1",
        fields :=
          [("HOST", hostURL.render)] ++
          (if nts = NTS_ALIVE then
            [("CACHE-CONTROL", "max-age=" ++ toString CACHE_DURATION_SECONDS),
             ("LOCATION", (SoapyURL.mk "tcp" env.hostName st.service).render)]
          else []) ++
          [("SERVER", env.userAgent),
           ("NT", SOAPY_REMOTE_TARGET),
           ("USN", "uuid:" ++ st.uuid ++ "::" ++ SOAPY_REMOTE_TARGET),
           ("NTS", nts)] }
    ({ d with lastTimeNotify := now }, [(header, d.groupURL)])

/-- SoapySSDPEndpoint registerService: record the identity and advertised
service and set the serviceRegistered flag. -/
def registerService (st : SharedState) (uuid service : String) : SharedState :=
  { st with serviceRegistered := true, uuid := uuid, service := service }

/-- SoapySSDPEndpoint enablePeriodicSearch: store the flag, then send one
search header per handler (the loop runs for either flag value). -/
def enablePeriodicSearch (env : Env) (st : SharedState) (handlers : List HandlerData)
    (enable : Bool) (now : Int) : SharedState × List HandlerData × List Msg :=
  let st1 := { st with periodicSearchEnabled := enable }
  let results := handlers.map (fun d => sendSearchHeader parseURL env d now)
  (st1, results.map Prod.fst, results.map Prod.snd)

/-- SoapySSDPEndpoint enablePeriodicNotify: store the flag, then send one
alive notify header per handler (the loop runs for either flag value; each
send is itself skipped when no service is registered). -/
def enablePeriodicNotify (env : Env) (st : SharedState) (handlers : List HandlerData)
    (enable : Bool) (now : Int) : SharedState × List HandlerData × List Msg :=
  let st1 := { st with periodicNotifyEnabled := enable }
  let results := handlers.map (fun d => sendNotifyHeader parseURL st1 env d NTS_ALIVE now)
  (st1, results.map Prod.fst, (results.map Prod.snd).flatten)

/-- SoapySSDPEndpoint handleSearchRequest: drop the request unless a service
is registered, the MAN field is exactly the quoted discover token and the ST
field is the wildcard, the well-known target or the uuid-qualified local
identity; on a match send the unicast 200 OK response back to the source
address and then multicast an alive notify. -/
def handleSearchRequest (st : SharedState) (env : Env) (d : HandlerData)
    (request : SoapyHTTPHeader) (recvAddr : String) (now : Int) : HandlerData × List Msg :=
  if !st.serviceRegistered then (d, [])
  else if request.getField "MAN" ≠ "\"ssdp:discover\"" then (d, [])
  else
    let stField := request.getField "ST"
    if ¬(stField = "ssdp:all" ∨ stField = SOAPY_REMOTE_TARGET ∨ stField = "uuid:" ++ st.uuid)
    then (d, [])
    else
      let response : SoapyHTTPHeader :=
        { line0 := "HTTP/1.1 200 OK",
          fields := [("CACHE-CONTROL", "max-age=" ++ toString CACHE_DURATION_SECONDS),
                     ("DATE", env.dateGMT),
                     ("EXT", ""),
                     ("LOCATION", (SoapyURL.mk "tcp" env.hostName st.service).render),
                     ("SERVER", env.userAgent),
                     ("ST", SOAPY_REMOTE_TARGET),
                     ("USN", "uuid:" ++ st.uuid ++ "::" ++ SOAPY_REMOTE_TARGET)] }
      let sent := sendNotifyHeader parseURL st env d NTS_ALIVE now
      (sent.1, (response, recvAddr) :: sent.2)

/-- SoapySSDPEndpoint handleRegisterService: drop the message when the USN
field is empty; erase the USN binding and stop on a byebye notification
subtype; drop when the LOCATION field is empty; otherwise build the server
locator from the datagram source node and the LOCATION service, and assign
the binding with expiry now plus the parsed cache duration.  none models
the exception escaping from getCacheDuration. -/
def handleRegisterService (d : HandlerData) (header : SoapyHTTPHeader)
    (recvAddr : String) (now : Int) : Option HandlerData :=
  let usn := header.getField "USN"
  if usn = "" then some d
  else if header.getField "NTS" = NTS_BYEBYE then
    some { d with usnToURL := eraseKey d.usnToURL usn }
  else
    let location := header.getField "LOCATION"
    if location = "" then some d
    else
      let serverURL := SoapyURL.mk "tcp" (parseURL recvAddr).node (parseURL location).service
      match getCacheDuration header with
      | none => none
      | some dur =>
        some { d with usnToURL := upsert d.usnToURL usn (serverURL.render, now + dur) }

/-- SoapySSDPEndpoint handleSearchResponse: accept only the well-known ST
and delegate to handleRegisterService. -/
def handleSearchResponse (d : HandlerData) (header : SoapyHTTPHeader)
    (recvAddr : String) (now : Int) : Option HandlerData :=
  if header.getField "ST" ≠ SOAPY_REMOTE_TARGET then some d
  else handleRegisterService parseURL d header recvAddr now

/-- SoapySSDPEndpoint handleNotifyRequest: accept only the well-known NT and
delegate to handleRegisterService. -/
def handleNotifyRequest (d : HandlerData) (header : SoapyHTTPHeader)
    (recvAddr : String) (now : Int) : Option HandlerData :=
  if header.getField "NT" ≠ SOAPY_REMOTE_TARGET then some d
  else handleRegisterService parseURL d header recvAddr now

/-- the tail of every handler loop iteration, run under the lock: sweep the
cache at the current time, then run the two periodic trigger checks exactly
as written in the source, each comparing the stamped last time against
timeNow plus the trigger timeout. -/
def loopTail (st : SharedState) (env : Env) (d : HandlerData) (timeNow : Int) :
    HandlerData × List Msg :=
  let triggerExpired := timeNow + TRIGGER_TIMEOUT_SECONDS
  let d1 := { d with usnToURL := sweepCache d.usnToURL timeNow }
  let step2 : HandlerData × List Msg :=
    if st.periodicSearchEnabled && decide (d1.lastTimeSearch > triggerExpired) then
      let r := sendSearchHeader parseURL env d1 timeNow
      (r.1, [r.2])
    else (d1, [])
  let step3 : HandlerData × List Msg :=
    if st.periodicNotifyEnabled && decide (step2.1.lastTimeNotify > triggerExpired) then
      sendNotifyHeader parseURL st env step2.1 NTS_ALIVE timeNow
    else (step2.1, [])
  (step3.1, step2.2 ++ step3.2)

/-- the receive branch of a handler loop iteration: parse the datagram and
dispatch on the exact start line through the three in-order checks of the
source; none models the exception escaping from handleRegisterService. -/
def dispatchRecv (st : SharedState) (env : Env) (d : HandlerData)
    (header : SoapyHTTPHeader) (recvAddr : String) (now : Int) :
    Option (HandlerData × List Msg) :=
  let r1 : HandlerData × List Msg :=
    if header.line0 = "M-SEARCH * HTTP/1.1"
    then handleSearchRequest parseURL st env d header recvAddr now
    else (d, [])
  match (if header.line0 = "HTTP/1.1 200 OK"
         then handleSearchResponse parseURL r1.1 header recvAddr now
         else some r1.1) with
  | none => none
  | some d2 =>
    match (if header.line0 = "NOTIFY * HTTP/1.1"
           then handleNotifyRequest parseURL d2 header recvAddr now
           else some d2) with
    | none => none
    | some d3 => some (d3, r1.2)

/-- one full handler loop iteration: the optional received datagram is
dispatched first, then the sweep and trigger tail runs. -/
def handlerIteration (st : SharedState) (env : Env) (d : HandlerData)
    (incoming : Option (SoapyHTTPHeader × String)) (now : Int) :
    Option (HandlerData × List Msg) :=
  match incoming with
  | none =>
    let r := loopTail parseURL st env d now
    some (r.1, r.2)
  | some (header, recvAddr) =>
    match dispatchRecv parseURL st env d header recvAddr now with
    | none => none
    | some (d1, msgs1) =>
      let r := loopTail parseURL st env d1 now
      some (r.1, msgs1 ++ r.2)

end Handlers

/-- process-wide construction state: the static blacklistedGroups set of
spawnHandler together with the handlers vector being filled. -/
structure SpawnState where
  blacklistedGroups : List String
  handlers : List HandlerData

deriving instance DecidableEq for SpawnState

/-- outcome of one spawnHandler call. -/
inductive SpawnOutcome where
  | blacklisted
  | joinFailed
  | bindFailed
  | spawned

deriving instance DecidableEq for SpawnOutcome

/-- SoapySSDPEndpoint spawnHandler: return at once when the group is
blacklisted (before any socket or thread is created); on a multicast join
failure insert the group into the blacklist and return; on a bind failure
return without blacklisting; otherwise push the new handler.  joinRet and
bindRet are the socket collaborator return codes, zero meaning success. -/
def spawnHandler (s : SpawnState) (groupAddr : String) (ipVer : Nat)
    (joinRet bindRet : Int) : SpawnState × SpawnOutcome :=
  if groupAddr ∈ s.blacklistedGroups then (s, .blacklisted)
  else if joinRet ≠ 0 then
    ({ s with blacklistedGroups := groupAddr :: s.blacklistedGroups }, .joinFailed)
  else if bindRet ≠ 0 then (s, .bindFailed)
  else
    ({ s with handlers :=
        s.handlers ++ [{ ipVer := ipVer, groupURL := "udp://" ++ groupAddr ++ ":1900",
                         lastTimeSearch := 0, lastTimeNotify := 0, usnToURL := [] }] },
     .spawned)

/-- the shared state written by the SoapySSDPEndpoint constructor. -/
def initialShared : SharedState :=
  { serviceRegistered := false, uuid := "", service := "",
    periodicSearchEnabled := false, periodicNotifyEnabled := false }

/-- the whole mutable endpoint state guarded by the mutex. -/
structure EndpointState where
  shared : SharedState
  handlers : List HandlerData

deriving instance DecidableEq for EndpointState

/-- the operations that touch the endpoint state: the public calls and one
handler loop iteration (with its optionally received datagram). -/
inductive EndpointOp where
  | opRegisterService (uuid service : String)
  | opEnablePeriodicSearch (enable : Bool) (now : Int)
  | opEnablePeriodicNotify (enable : Bool) (now : Int)
  | opGetServerURLs (ipVer : Nat) (only : Bool)
  | opHandlerIteration (i : Nat) (incoming : Option (SoapyHTTPHeader × String)) (now : Int)

deriving instance DecidableEq for EndpointOp

/-- whether an operation is the registerService call. -/
def isRegisterOp : EndpointOp → Bool
  | .opRegisterService _ _ => true
  | _ => false

/-- small-step semantics of the endpoint operations over the shared state
and the handler vector; none models the exception escaping from a receive
dispatch.  An iteration whose handler index is out of range steps nothing. -/
def applyOp (parseURL : String → SoapyURL) (env : Env) (s : EndpointState) :
    EndpointOp → Option EndpointState
  | .opRegisterService uuid service =>
    some { s with shared := registerService s.shared uuid service }
  | .opEnablePeriodicSearch enable now =>
    let r := enablePeriodicSearch parseURL env s.shared s.handlers enable now
    some { shared := r.1, handlers := r.2.1 }
  | .opEnablePeriodicNotify enable now =>
    let r := enablePeriodicNotify parseURL env s.shared s.handlers enable now
    some { shared := r.1, handlers := r.2.1 }
  | .opGetServerURLs _ _ => some s
  | .opHandlerIteration i incoming now =>
    match s.handlers.get? i with
    | none => some s
    | some d =>
      match handlerIteration parseURL s.shared env d incoming now with
      | none => none
      | some (d1, _) => some { s with handlers := s.handlers.set i d1 }

/-- keys of a cache. -/
def cacheKeys (c : Cache) : List String := c.map (fun e => e.1)

/-- a cache with no repeated key (the std map invariant). -/
def keysNodup (c : Cache) : Prop := (cacheKeys c).Nodup

/-- a concrete locator parser used by the closed witness statements. -/
def parseURL0 : String → SoapyURL :=
  fun s => { scheme := "udp", node := s, service := "1900" }

/-- a concrete environment used by the closed witness statements. -/
def env0 : Env := { hostName := "hostX", userAgent := "agentX", dateGMT := "dateX" }

/-- a concrete fresh IPv4 handler used by the closed witness statements. -/
def d0 : HandlerData :=
  { ipVer := 4, groupURL := "udp://239.255.255.250:1900",
    lastTimeSearch := 0, lastTimeNotify := 0, usnToURL := [] }

/-- a concrete handler holding two cached peers, used by closed witnesses. -/
def dTwo : HandlerData :=
  { ipVer := 4, groupURL := "udp://239.255.255.250:1900",
    lastTimeSearch := 0, lastTimeNotify := 0,
    usnToURL := [("u1", ("loc1", 50)), ("u2", ("loc2", 99))] }

/-- a concrete byebye notification for USN u1 that still carries a LOCATION
field, used to witness that the field is not consulted. -/
def hdrBye : SoapyHTTPHeader :=
  { line0 := "NOTIFY * HTTP/1.1",
    fields := [("NT", SOAPY_REMOTE_TARGET), ("NTS", "ssdp:byebye"),
               ("USN", "u1"), ("LOCATION", "tcp://evil:1")] }

/-- a concrete alive announcement for USN u1 whose LOCATION embeds a claimed
host name, used to witness the source-address locator construction. -/
def hdrUp : SoapyHTTPHeader :=
  { line0 := "NOTIFY * HTTP/1.1",
    fields := [("NT", SOAPY_REMOTE_TARGET), ("USN", "u1"),
               ("LOCATION", "tcp://claimedhost:55132")] }

/-- a concrete alive announcement for u1 with a ten second max-age. -/
def hdrMax10 : SoapyHTTPHeader :=
  { line0 := "NOTIFY * HTTP/1.1",
    fields := [("NT", SOAPY_REMOTE_TARGET), ("USN", "u1"),
               ("LOCATION", "tcp://peer:2020"), ("CACHE-CONTROL", "max-age=10")] }

/-- the IPv4 handler state after hdrMax10 arrives from 1.2.3.4 at time 0:
one binding for u1 expiring at time 10. -/
def dExp : HandlerData :=
  { ipVer := 4, groupURL := "udp://239.255.255.250:1900",
    lastTimeSearch := 0, lastTimeNotify := 0,
    usnToURL := [("u1", ("tcp://1.2.3.4:1900", 10))] }

/-- a concrete IPv6 handler caching a competing binding for u1. -/
def d6 : HandlerData :=
  { ipVer := 6, groupURL := "udp://[ff02::c]:1900",
    lastTimeSearch := 0, lastTimeNotify := 0,
    usnToURL := [("u1", ("tcp://[fe80::1]:1900", 20))] }

/-- a concrete well-formed search request for the well-known target. -/
def requestW : SoapyHTTPHeader :=
  { line0 := "M-SEARCH * HTTP/1.1",
    fields := [("MAN", "\"ssdp:discover\""), ("ST", SOAPY_REMOTE_TARGET)] }

/-- cache lookup after an assignment to the same key finds the new value. -/
theorem lookupUSN_upsert_self (c : Cache) (k : String) (v : String × Int) :
    lookupUSN (upsert c k v) k = some v := by
  induction c with
  | nil => simp [upsert, lookupUSN]
  | cons e rest ih =>
    by_cases h : e.1 = k
    · simp [upsert, h, lookupUSN]
    · simp [upsert, h, lookupUSN, ih]

/-- cache lookup of a different key is unchanged by an assignment. -/
theorem lookupUSN_upsert_other (c : Cache) (k : String) (v : String × Int)
    (k2 : String) (h : k2 ≠ k) : lookupUSN (upsert c k v) k2 = lookupUSN c k2 := by
  have hkk2 : ¬ k = k2 := fun hh => h hh.symm
  induction c with
  | nil => simp [upsert, lookupUSN, hkk2]
  | cons e rest ih =>
    by_cases he : e.1 = k
    · have hek2 : ¬ e.1 = k2 := by rw [he]; exact hkk2
      simp [upsert, he, lookupUSN, hek2, hkk2]
    · simp [upsert, he, lookupUSN, ih]

/-- every member of an assigned cache is the new binding or an old member. -/
theorem mem_upsert {c : Cache} {k : String} {v : String × Int} {p : String × String × Int}
    (h : p ∈ upsert c k v) : p = (k, v) ∨ p ∈ c := by
  induction c with
  | nil => simpa [upsert] using h
  | cons e rest ih =>
    by_cases he : e.1 = k
    · simp only [upsert, he, if_pos rfl] at h
      rcases List.mem_cons.mp h with h1 | h1
      · exact Or.inl h1
      · exact Or.inr (List.mem_cons_of_mem _ h1)
    · simp only [upsert, if_neg he] at h
      rcases List.mem_cons.mp h with h1 | h1
      · exact Or.inr (h1 ▸ List.mem_cons_self _ _)
      · rcases ih h1 with h2 | h2
        · exact Or.inl h2
        · exact Or.inr (List.mem_cons_of_mem _ h2)

/-- keys of an assigned cache come from the new key or the old keys. -/
theorem cacheKeys_upsert_sub {c : Cache} {k x : String} {v : String × Int}
    (h : x ∈ cacheKeys (upsert c k v)) : x = k ∨ x ∈ cacheKeys c := by
  rcases List.mem_map.mp h with ⟨p, hp, hx⟩
  rcases mem_upsert hp with h1 | h1
  · left; rw [← hx, h1]
  · right; exact List.mem_map.mpr ⟨p, h1, hx⟩

/-- assignment preserves the unique key invariant. -/
theorem keysNodup_upsert {c : Cache} (k : String) (v : String × Int)
    (h : keysNodup c) : keysNodup (upsert c k v) := by
  induction c with
  | nil => simp [upsert, keysNodup, cacheKeys]
  | cons e rest ih =>
    rcases List.nodup_cons.mp h with ⟨hk, hnd⟩
    by_cases he : e.1 = k
    · simp only [upsert, if_pos he, keysNodup, cacheKeys, List.map_cons]
      exact List.nodup_cons.mpr ⟨by rw [← he]; exact hk, hnd⟩
    · simp only [upsert, if_neg he, keysNodup, cacheKeys, List.map_cons]
      refine List.nodup_cons.mpr ⟨?_, ih hnd⟩
      intro hmem
      rcases cacheKeys_upsert_sub hmem with h1 | h1
      · exact he h1
      · exact hk h1

/-- a successful lookup is a member of the cache. -/
theorem lookupUSN_mem {c : Cache} {k : String} {v : String × Int}
    (h : lookupUSN c k = some v) : (k, v) ∈ c := by
  induction c with
  | nil => simp [lookupUSN] at h
  | cons e rest ih =>
    by_cases he : e.1 = k
    · simp only [lookupUSN, if_pos he] at h
      obtain ⟨e1, e2⟩ := e
      injection h with h2
      simp only at he
      rw [← he, ← h2]
      exact List.mem_cons_self _ _
    · simp only [lookupUSN, if_neg he] at h
      exact List.mem_cons_of_mem _ (ih h)

/-- under the unique key invariant a member is found by lookup. -/
theorem lookupUSN_of_mem {c : Cache} {k : String} {v : String × Int}
    (hnd : keysNodup c) (h : (k, v) ∈ c) : lookupUSN c k = some v := by
  induction c with
  | nil => simp at h
  | cons e rest ih =>
    simp only [keysNodup, cacheKeys, List.map_cons, List.nodup_cons] at hnd
    obtain ⟨hk, hnd2⟩ := hnd
    rcases List.mem_cons.mp h with h1 | h1
    · rw [← h1]; simp [lookupUSN]
    · by_cases he : e.1 = k
      · exact absurd (List.mem_map.mpr ⟨(k, v), h1, he.symm⟩) hk
      · simp only [lookupUSN, if_neg he]
        exact ih hnd2 h1

/-- erasing a key removes its binding. -/
theorem lookupUSN_eraseKey_self (c : Cache) (k : String) :
    lookupUSN (eraseKey c k) k = none := by
  induction c with
  | nil => simp [eraseKey, lookupUSN]
  | cons e rest ih =>
    by_cases he : e.1 = k
    · simpa [eraseKey, he, lookupUSN] using ih
    · simpa [eraseKey, he, lookupUSN] using ih

/-- erasing a key leaves every other binding unchanged. -/
theorem lookupUSN_eraseKey_other (c : Cache) (k k2 : String) (h : k2 ≠ k) :
    lookupUSN (eraseKey c k) k2 = lookupUSN c k2 := by
  induction c with
  | nil => simp [eraseKey, lookupUSN]
  | cons e rest ih =>
    by_cases he : e.1 = k
    · have hkk2 : ¬ k = k2 := fun hh => h hh.symm
      simp only [eraseKey] at ih ⊢
      simp [List.filter_cons, he, lookupUSN, hkk2, ih]
    · simp only [eraseKey] at ih ⊢
      simp [List.filter_cons, he, lookupUSN, ih]

/-- assignment makes its key present. -/
theorem hasKey_upsert_self (c : Cache) (k : String) (v : String × Int) :
    hasKey (upsert c k v) k = true := by
  simp [hasKey, lookupUSN_upsert_self]

/-- assignment keeps every present key present. -/
theorem hasKey_upsert_mono (c : Cache) (k2 : String) (v : String × Int) (k : String)
    (h : hasKey c k = true) : hasKey (upsert c k2 v) k = true := by
  by_cases hk : k = k2
  · subst hk; exact hasKey_upsert_self c k v
  · simpa [hasKey, lookupUSN_upsert_other c k2 v k hk] using h

/-- a member of a merged cache was already accumulated or comes from the
handler cache being merged. -/
theorem mem_mergeInner {b : Bool} {l acc : Cache} {p : String × String × Int}
    (h : p ∈ mergeInner b acc l) : p ∈ acc ∨ p ∈ l := by
  induction l generalizing acc with
  | nil => exact Or.inl h
  | cons e rest ih =>
    obtain ⟨e1, e2⟩ := e
    simp only [mergeInner] at h
    rcases ih h with h1 | h1
    · by_cases hc : (hasKey acc e1 && !b) = true
      · rw [if_pos hc] at h1; exact Or.inl h1
      · rw [if_neg hc] at h1
        rcases mem_upsert h1 with h2 | h2
        · right; rw [h2]; exact List.mem_cons_self _ _
        · exact Or.inl h2
    · right; exact List.mem_cons_of_mem _ h1

/-- merging preserves the unique key invariant of the accumulator. -/
theorem keysNodup_mergeInner {b : Bool} {l : Cache} :
    ∀ {acc : Cache}, keysNodup acc → keysNodup (mergeInner b acc l) := by
  induction l with
  | nil => intro acc h; exact h
  | cons e rest ih =>
    intro acc h
    simp only [mergeInner]
    apply ih
    by_cases hc : (hasKey acc e.1 && !b) = true
    · rw [if_pos hc]; exact h
    · rw [if_neg hc]; exact keysNodup_upsert _ _ h

/-- merging keeps every present key present. -/
theorem hasKey_mergeInner_mono {b : Bool} {l : Cache} :
    ∀ {acc : Cache} {k : String}, hasKey acc k = true → hasKey (mergeInner b acc l) k = true := by
  induction l with
  | nil => intro acc k h; exact h
  | cons e rest ih =>
    intro acc k h
    simp only [mergeInner]
    apply ih
    by_cases hc : (hasKey acc e.1 && !b) = true
    · rw [if_pos hc]; exact h
    · rw [if_neg hc]; exact hasKey_upsert_mono _ _ _ _ h

/-- merging a cache makes every one of its keys present. -/
theorem hasKey_mergeInner_of_mem {b : Bool} {l : Cache} :
    ∀ {acc : Cache} {k : String}, k ∈ cacheKeys l → hasKey (mergeInner b acc l) k = true := by
  induction l with
  | nil => intro acc k h; simp [cacheKeys] at h
  | cons e rest ih =>
    intro acc k h
    simp only [cacheKeys, List.map_cons, List.mem_cons] at h
    simp only [mergeInner]
    rcases h with h1 | h1
    · apply hasKey_mergeInner_mono
      by_cases hc : (hasKey acc e.1 && !b) = true
      · rw [if_pos hc, h1]
        exact ((Bool.and_eq_true _ _).mp hc).1
      · rw [if_neg hc, h1]; exact hasKey_upsert_self _ _ _
    · exact ih h1

/-- merging a non-matching handler cache never overwrites a present binding. -/
theorem lookupUSN_mergeInner_nonmatch {l : Cache} :
    ∀ {acc : Cache} {k : String} {x : String × Int}, lookupUSN acc k = some x →
      lookupUSN (mergeInner false acc l) k = some x := by
  induction l with
  | nil => intro acc k x h; exact h
  | cons e rest ih =>
    intro acc k x h
    simp only [mergeInner, Bool.not_false, Bool.and_true]
    by_cases hc : hasKey acc e.1 = true
    · rw [if_pos hc]; exact ih h
    · rw [if_neg hc]
      have hk : k ≠ e.1 := by
        intro hh
        exact hc (by rw [← hh]; simp [hasKey, h])
      exact ih (by rw [lookupUSN_upsert_other _ _ _ _ hk]; exact h)

/-- merging a cache that misses a key leaves its binding unchanged. -/
theorem lookupUSN_mergeInner_keyout {b : Bool} {l : Cache} :
    ∀ {acc : Cache} {k : String}, k ∉ cacheKeys l →
      lookupUSN (mergeInner b acc l) k = lookupUSN acc k := by
  induction l with
  | nil => intro acc k _; rfl
  | cons e rest ih =>
    intro acc k h
    simp only [cacheKeys, List.map_cons, List.mem_cons, not_or] at h
    obtain ⟨h1, h2⟩ := h
    simp only [mergeInner]
    rw [ih h2]
    by_cases hc : (hasKey acc e.1 && !b) = true
    · rw [if_pos hc]
    · rw [if_neg hc]; exact lookupUSN_upsert_other _ _ _ _ h1

/-- merging the matching handler cache installs every one of its bindings
(the match branch assigns unconditionally, and with unique keys the binding
is not later overwritten). -/
theorem lookupUSN_mergeInner_match {l : Cache} :
    ∀ {acc : Cache} {k : String} {v : String × Int}, keysNodup l → (k, v) ∈ l →
      lookupUSN (mergeInner true acc l) k = some v := by
  induction l with
  | nil => intro acc k v _ h; simp at h
  | cons e rest ih =>
    intro acc k v hnd h
    simp only [keysNodup, cacheKeys, List.map_cons, List.nodup_cons] at hnd
    obtain ⟨hk, hnd2⟩ := hnd
    simp only [mergeInner, Bool.not_true, Bool.and_false, Bool.false_eq_true, if_false]
    rcases List.mem_cons.mp h with h1 | h1
    · have hkeys : k ∉ cacheKeys rest := by
        intro hmem
        rw [← h1] at hk
        exact hk hmem
      rw [lookupUSN_mergeInner_keyout hkeys, ← h1]
      exact lookupUSN_upsert_self _ _ _
    · exact ih hnd2 h1

/-- a member of the merged map of getServerURLs comes from some handler. -/
theorem mem_mergedMap_aux {v : Nat} {only : Bool} {hs : List HandlerData} :
    ∀ {acc : Cache} {p : String × String × Int}, p ∈ hs.foldl (mergeStep v only) acc →
      p ∈ acc ∨ ∃ d ∈ hs, p ∈ d.usnToURL := by
  induction hs with
  | nil => intro acc p h; exact Or.inl h
  | cons d rest ih =>
    intro acc p h
    simp only [List.foldl_cons] at h
    rcases ih h with h1 | h1
    · simp only [mergeStep] at h1
      by_cases hc : (only && !(decide (d.ipVer = v))) = true
      · rw [if_pos hc] at h1; exact Or.inl h1
      · rw [if_neg hc] at h1
        rcases mem_mergeInner h1 with h2 | h2
        · exact Or.inl h2
        · exact Or.inr ⟨d, List.mem_cons_self _ _, h2⟩
    · obtain ⟨d2, hd2, hp⟩ := h1
      exact Or.inr ⟨d2, List.mem_cons_of_mem _ hd2, hp⟩

/-- the merged map always satisfies the unique key invariant. -/
theorem keysNodup_mergedMap_aux {v : Nat} {only : Bool} {hs : List HandlerData} :
    ∀ {acc : Cache}, keysNodup acc → keysNodup (hs.foldl (mergeStep v only) acc) := by
  induction hs with
  | nil => intro acc h; exact h
  | cons d rest ih =>
    intro acc h
    simp only [List.foldl_cons]
    apply ih
    simp only [mergeStep]
    by_cases hc : (only && !(decide (d.ipVer = v))) = true
    · rw [if_pos hc]; exact h
    · rw [if_neg hc]; exact keysNodup_mergeInner h

/-- with only set, handlers of a non-matching family contribute nothing. -/
theorem foldl_skip_all {v : Nat} {hs : List HandlerData}
    (h : ∀ d ∈ hs, d.ipVer ≠ v) :
    ∀ acc : Cache, hs.foldl (mergeStep v true) acc = acc := by
  induction hs with
  | nil => intro acc; rfl
  | cons d rest ih =>
    intro acc
    simp only [List.foldl_cons]
    have hd : d.ipVer ≠ v := h d (List.mem_cons_self _ _)
    have hstep : mergeStep v true acc d = acc := by
      simp [mergeStep, hd]
    rw [hstep]
    exact ih (fun d2 hd2 => h d2 (List.mem_cons_of_mem _ hd2)) acc

/-- folding non-matching handlers never overwrites a present binding. -/
theorem lookupUSN_foldl_nonmatch {v : Nat} {only : Bool} {hs : List HandlerData}
    (h : ∀ d ∈ hs, d.ipVer ≠ v) :
    ∀ {acc : Cache} {k : String} {x : String × Int}, lookupUSN acc k = some x →
      lookupUSN (hs.foldl (mergeStep v only) acc) k = some x := by
  induction hs with
  | nil => intro acc k x hl; exact hl
  | cons d rest ih =>
    intro acc k x hl
    simp only [List.foldl_cons]
    have hd : d.ipVer ≠ v := h d (List.mem_cons_self _ _)
    refine ih (fun d2 hd2 => h d2 (List.mem_cons_of_mem _ hd2)) ?_
    have hmatch : (decide (d.ipVer = v)) = false := by simp [hd]
    simp only [mergeStep, hmatch, Bool.not_false, Bool.and_true]
    by_cases hc : only = true
    · rw [if_pos hc]; exact hl
    · rw [if_neg hc]; exact lookupUSN_mergeInner_nonmatch hl

/-- folding handlers keeps every present key present. -/
theorem hasKey_foldl_mono {v : Nat} {only : Bool} {hs : List HandlerData} :
    ∀ {acc : Cache} {k : String}, hasKey acc k = true →
      hasKey (hs.foldl (mergeStep v only) acc) k = true := by
  induction hs with
  | nil => intro acc k h; exact h
  | cons d rest ih =>
    intro acc k h
    simp only [List.foldl_cons]
    apply ih
    simp only [mergeStep]
    by_cases hc : (only && !(decide (d.ipVer = v))) = true
    · rw [if_pos hc]; exact h
    · rw [if_neg hc]; exact hasKey_mergeInner_mono h

/-- without only, every key of every handler cache reaches the merged map. -/
theorem hasKey_foldl_of_mem {v : Nat} {hs : List HandlerData} :
    ∀ {acc : Cache} {k : String}, (∃ d ∈ hs, k ∈ cacheKeys d.usnToURL) →
      hasKey (hs.foldl (mergeStep v false) acc) k = true := by
  induction hs with
  | nil => intro acc k h; simp at h
  | cons d rest ih =>
    intro acc k h
    simp only [List.foldl_cons]
    rcases h with ⟨d2, hd2, hk⟩
    rcases List.mem_cons.mp hd2 with h1 | h1
    · apply hasKey_foldl_mono
      simp only [mergeStep, Bool.false_and, Bool.false_eq_true, if_false]
      exact hasKey_mergeInner_of_mem (h1 ▸ hk)
    · exact ih ⟨d2, h1, hk⟩

/-- one alive notify send produces one message when a service is registered
and none otherwise. -/
theorem notify_flatten_length (parseURL : String → SoapyURL) (st1 : SharedState)
    (env : Env) (now : Int) : ∀ hs : List HandlerData,
    (((hs.map (fun d => sendNotifyHeader parseURL st1 env d NTS_ALIVE now)).map
        Prod.snd).flatten).length =
      if st1.serviceRegistered then hs.length else 0 := by
  intro hs
  induction hs with
  | nil => cases h : st1.serviceRegistered <;> simp [h]
  | cons d rest ih =>
    cases h : st1.serviceRegistered <;>
      simp [sendNotifyHeader, h] at ih ⊢ <;> omega

/-- C1: the spec intends a handler loop iteration to send a search message
once the periodic search flag is on and the 60 second trigger interval has
elapsed since lastTimeSearch, and likewise an alive announcement against
lastTimeNotify.  The code compares the stamped last time against timeNow
plus the interval, a condition that can never hold while the stamp is at or
before the current time, so the iteration tail sends nothing no matter how
much time has elapsed: the comparison is inverted. -/
theorem loopTail_never_triggers (parseURL : String → SoapyURL) (st : SharedState)
    (env : Env) (d : HandlerData) (t : Int)
    (hts : d.lastTimeSearch ≤ t) (htn : d.lastTimeNotify ≤ t) :
    (loopTail parseURL st env d t).2 = [] := by
  have h1 : decide (d.lastTimeSearch > t + TRIGGER_TIMEOUT_SECONDS) = false := by
    simp only [TRIGGER_TIMEOUT_SECONDS, decide_eq_false_iff_not]
    omega
  have h2 : decide (d.lastTimeNotify > t + TRIGGER_TIMEOUT_SECONDS) = false := by
    simp only [TRIGGER_TIMEOUT_SECONDS, decide_eq_false_iff_not]
    omega
  simp [loopTail, h1, h2]

/-- C1 witness: with both periodic flags enabled, both stamps at 0 and the
clock at 100 (100 seconds elapsed, well past the 60 second interval), the
iteration tail still sends no message at all. -/
theorem loopTail_never_triggers_witness :
    ((0 : Int) ≤ 100 ∧ (0 : Int) ≤ 100) ∧
    (loopTail parseURL0
      { serviceRegistered := true, uuid := "U", service := "9999",
        periodicSearchEnabled := true, periodicNotifyEnabled := true }
      env0 d0 100).2 = [] :=
  ⟨⟨by decide, by decide⟩,
   loopTail_never_triggers parseURL0
     { serviceRegistered := true, uuid := "U", service := "9999",
       periodicSearchEnabled := true, periodicNotifyEnabled := true }
     env0 d0 100 (by decide) (by decide)⟩

/-- C2: the claim states getCacheDuration is total and never raises an
error.  At a CACHE-CONTROL value consisting of a dangling max-age
assignment the whitespace scan calls the std string at accessor one past
the end of the value, raising an uncaught std out_of_range (modelled as
none) instead of returning the 120 second default; for comparison a
well-formed assignment parses and an absent field defaults. -/
theorem getCacheDuration_raises_on_dangling_assignment :
    getCacheDuration { line0 := "NOTIFY * HTTP/1.1",
                       fields := [("CACHE-CONTROL", "max-age=")] } = none ∧
    getCacheDuration { line0 := "NOTIFY * HTTP/1.1",
                       fields := [("CACHE-CONTROL", "max-age=30")] } = some 30 ∧
    getCacheDuration { line0 := "NOTIFY * HTTP/1.1", fields := [] } = some 120 :=
  ⟨by decide, by decide, by decide⟩

/-- C3 counterexample: the claim states that calling enablePeriodicSearch
with false only toggles the flag and sends no message; the code runs the
per-handler send loop for either flag value, so disabling still sends one
search message. -/
theorem enablePeriodicSearch_false_still_sends :
    (enablePeriodicSearch parseURL0 env0 initialShared [d0] false 0).2.2 ≠ [] ∧
    (enablePeriodicSearch parseURL0 env0 initialShared [d0] false 0).1.periodicSearchEnabled
      = false :=
  ⟨by decide, by decide⟩

/-- C3 amended: enablePeriodicSearch and enablePeriodicNotify set their flag
to the given value and, regardless of that value, send one search message
per handler (enablePeriodicSearch), respectively one alive announcement per
handler when a service is registered and none otherwise
(enablePeriodicNotify). -/
theorem enablePeriodic_sets_flag_and_always_sends (parseURL : String → SoapyURL)
    (env : Env) (st : SharedState) (hs : List HandlerData) (enable : Bool) (now : Int) :
    (enablePeriodicSearch parseURL env st hs enable now).1.periodicSearchEnabled = enable ∧
    (enablePeriodicSearch parseURL env st hs enable now).2.2.length = hs.length ∧
    (enablePeriodicNotify parseURL env st hs enable now).1.periodicNotifyEnabled = enable ∧
    (enablePeriodicNotify parseURL env st hs enable now).2.2.length =
      (if st.serviceRegistered then hs.length else 0) := by
  refine ⟨by simp [enablePeriodicSearch], by simp [enablePeriodicSearch],
          by simp [enablePeriodicNotify], ?_⟩
  have h := notify_flatten_length parseURL
    { st with periodicNotifyEnabled := enable } env now hs
  simpa [enablePeriodicNotify] using h

/-- C7: a message whose USN field is empty or absent is dropped with the
cache unchanged; a message whose notification subtype equals the byebye
token removes the binding of its USN (present or not, expired or not),
changes nothing else, and consults no further field: the resulting state is
expressed from the USN field and the prior state alone, with LOCATION and
every other field unused. -/
theorem handleRegisterService_byebye_spec (parseURL : String → SoapyURL)
    (d : HandlerData) (header : SoapyHTTPHeader) (recvAddr : String) (now : Int) :
    (header.getField "USN" = "" →
      handleRegisterService parseURL d header recvAddr now = some d) ∧
    (header.getField "USN" ≠ "" → header.getField "NTS" = NTS_BYEBYE →
      handleRegisterService parseURL d header recvAddr now =
        some { d with usnToURL := eraseKey d.usnToURL (header.getField "USN") } ∧
      lookupUSN (eraseKey d.usnToURL (header.getField "USN")) (header.getField "USN")
        = none ∧
      ∀ k, k ≠ header.getField "USN" →
        lookupUSN (eraseKey d.usnToURL (header.getField "USN")) k
          = lookupUSN d.usnToURL k) := by
  constructor
  · intro h
    simp [handleRegisterService, h]
  · intro h1 h2
    exact ⟨by simp [handleRegisterService, h1, h2],
           lookupUSN_eraseKey_self _ _,
           fun k hk => lookupUSN_eraseKey_other _ _ _ hk⟩

/-- C7 witness: a byebye for u1 carrying a LOCATION field removes exactly
the u1 binding from a cache holding u1 (unexpired) and u2. -/
theorem handleRegisterService_byebye_spec_witness :
    handleRegisterService parseURL0 dTwo hdrBye "9.9.9.9" 7 =
      some { ipVer := 4, groupURL := "udp://239.255.255.250:1900",
             lastTimeSearch := 0, lastTimeNotify := 0,
             usnToURL := [("u2", ("loc2", 99))] } :=
  ((handleRegisterService_byebye_spec parseURL0 dTwo hdrBye "9.9.9.9" 7).2
    (by decide) (by decide)).1.trans (by decide)

/-- C8: an accepted announce or response carrying a USN and a LOCATION
upserts a binding whose locator is rendered from the tcp scheme, the node
of the datagram source address and the service extracted from the LOCATION
field (never the node embedded in LOCATION), with expiry equal to now plus
the parsed cache duration; the assignment overwrites any previous binding
of the USN and leaves every other binding unchanged. -/
theorem handleRegisterService_upsert_spec (parseURL : String → SoapyURL)
    (d : HandlerData) (header : SoapyHTTPHeader) (recvAddr : String) (now dur : Int)
    (husn : header.getField "USN" ≠ "") (hnts : header.getField "NTS" ≠ NTS_BYEBYE)
    (hloc : header.getField "LOCATION" ≠ "")
    (hdur : getCacheDuration header = some dur) :
    ∃ d2, handleRegisterService parseURL d header recvAddr now = some d2 ∧
      d2.usnToURL = upsert d.usnToURL (header.getField "USN")
        ((SoapyURL.mk "tcp" (parseURL recvAddr).node
            (parseURL (header.getField "LOCATION")).service).render, now + dur) ∧
      lookupUSN d2.usnToURL (header.getField "USN") =
        some ((SoapyURL.mk "tcp" (parseURL recvAddr).node
            (parseURL (header.getField "LOCATION")).service).render, now + dur) ∧
      (∀ k, k ≠ header.getField "USN" →
        lookupUSN d2.usnToURL k = lookupUSN d.usnToURL k) ∧
      d2.ipVer = d.ipVer ∧ d2.groupURL = d.groupURL := by
  have hmain : handleRegisterService parseURL d header recvAddr now =
      some (HandlerData.mk d.ipVer d.groupURL d.lastTimeSearch d.lastTimeNotify
        (upsert d.usnToURL (header.getField "USN")
          ((SoapyURL.mk "tcp" (parseURL recvAddr).node
            (parseURL (header.getField "LOCATION")).service).render, now + dur))) := by
    simp [handleRegisterService, husn, hnts, hloc, hdur]
  exact ⟨_, hmain, rfl, lookupUSN_upsert_self _ _ _,
    fun k hk => lookupUSN_upsert_other _ _ _ _ hk, rfl, rfl⟩

/-- C8 witness: an alive announcement for u1 claiming host claimedhost and
service 55132, received from source 10.0.0.7 with no CACHE-CONTROL at time
50, overwrites the stale u1 binding of loc1 with a locator built from the
source node and the location service (under parseURL0 the service parses to
1900) and expiry 50 plus the 120 second default, leaving u2 alone. -/
theorem handleRegisterService_upsert_spec_witness :
    ∃ d2, handleRegisterService parseURL0 dTwo hdrUp "10.0.0.7" 50 = some d2 ∧
      d2.usnToURL = upsert dTwo.usnToURL (hdrUp.getField "USN")
        ((SoapyURL.mk "tcp" (parseURL0 "10.0.0.7").node
            (parseURL0 (hdrUp.getField "LOCATION")).service).render, 50 + 120) ∧
      lookupUSN d2.usnToURL (hdrUp.getField "USN") =
        some ((SoapyURL.mk "tcp" (parseURL0 "10.0.0.7").node
            (parseURL0 (hdrUp.getField "LOCATION")).service).render, 50 + 120) ∧
      (∀ k, k ≠ hdrUp.getField "USN" →
        lookupUSN d2.usnToURL k = lookupUSN dTwo.usnToURL k) ∧
      d2.ipVer = dTwo.ipVer ∧ d2.groupURL = dTwo.groupURL :=
  handleRegisterService_upsert_spec parseURL0 dTwo hdrUp "10.0.0.7" 50 120
    (by decide) (by decide) (by decide) (by decide)

/-- C9: a failed multicast join inserts the group into the process-wide
blacklist; every construction attempt for a blacklisted group returns at
once with the state unchanged, before any handler is created; blacklist
membership of any other group is unaffected by an attempt; a bind failure
aborts the attempt without blacklisting and without adding a handler; the
blacklist never shrinks. -/
theorem spawnHandler_blacklist_spec :
    (∀ s g ipVer jr br, g ∉ s.blacklistedGroups → jr ≠ 0 →
      spawnHandler s g ipVer jr br =
        ({ s with blacklistedGroups := g :: s.blacklistedGroups },
         SpawnOutcome.joinFailed)) ∧
    (∀ s g ipVer jr br, g ∈ s.blacklistedGroups →
      spawnHandler s g ipVer jr br = (s, SpawnOutcome.blacklisted)) ∧
    (∀ s g ipVer jr br g2, g2 ≠ g →
      (g2 ∈ (spawnHandler s g ipVer jr br).1.blacklistedGroups ↔
        g2 ∈ s.blacklistedGroups)) ∧
    (∀ s g ipVer br, g ∉ s.blacklistedGroups → br ≠ 0 →
      spawnHandler s g ipVer 0 br = (s, SpawnOutcome.bindFailed)) ∧
    (∀ s g ipVer jr br x, x ∈ s.blacklistedGroups →
      x ∈ (spawnHandler s g ipVer jr br).1.blacklistedGroups) := by
  refine ⟨?_, ?_, ?_, ?_, ?_⟩
  · intro s g ipVer jr br hg hjr
    simp [spawnHandler, hg, hjr]
  · intro s g ipVer jr br hg
    simp [spawnHandler, hg]
  · intro s g ipVer jr br g2 hne
    by_cases hg : g ∈ s.blacklistedGroups
    · simp [spawnHandler, hg]
    · by_cases hjr : jr = 0
      · by_cases hbr : br = 0
        · simp [spawnHandler, hg, hjr, hbr]
        · simp [spawnHandler, hg, hjr, hbr]
      · simp [spawnHandler, hg, hjr, List.mem_cons, hne]
  · intro s g ipVer br hg hbr
    simp [spawnHandler, hg, hbr]
  · intro s g ipVer jr br x hx
    by_cases hg : g ∈ s.blacklistedGroups
    · simpa [spawnHandler, hg] using hx
    · by_cases hjr : jr = 0
      · by_cases hbr : br = 0 <;> simp [spawnHandler, hg, hjr, hbr, hx]
      · simp [spawnHandler, hg, hjr, List.mem_cons, hx]

/-- C9 witness: a join failure for the IPv6 group blacklists it; the next
attempt for that group aborts unchanged while an attempt for the IPv4 group
goes through to a spawned handler. -/
theorem spawnHandler_blacklist_spec_witness :
    spawnHandler { blacklistedGroups := [], handlers := [] } "ff02::c" 6 (-1) 0 =
      ({ blacklistedGroups := ["ff02::c"], handlers := [] },
       SpawnOutcome.joinFailed) ∧
    spawnHandler { blacklistedGroups := ["ff02::c"], handlers := [] } "ff02::c" 6 0 0 =
      ({ blacklistedGroups := ["ff02::c"], handlers := [] },
       SpawnOutcome.blacklisted) ∧
    ("ff02::c" ∈
        (spawnHandler { blacklistedGroups := ["ff02::c"], handlers := [] }
          "239.255.255.250" 4 0 0).1.blacklistedGroups ↔
      "ff02::c" ∈
        ({ blacklistedGroups := ["ff02::c"], handlers := [] } : SpawnState).blacklistedGroups) :=
  ⟨(spawnHandler_blacklist_spec.1 { blacklistedGroups := [], handlers := [] }
      "ff02::c" 6 (-1) 0 (by decide) (by decide)).trans (by decide),
   spawnHandler_blacklist_spec.2.1 { blacklistedGroups := ["ff02::c"], handlers := [] }
     "ff02::c" 6 0 0 (by decide),
   spawnHandler_blacklist_spec.2.2.1 { blacklistedGroups := ["ff02::c"], handlers := [] }
     "239.255.255.250" 4 0 0 "ff02::c" (by decide)⟩

/-- C10: the serviceRegistered flag starts false in the constructor, and
across every operation that successfully steps the endpoint state it equals
the old value or-ed with whether the step was a registerService call: that
call is the only writer, it writes true, and nothing ever resets it. -/
theorem serviceRegistered_monotone (parseURL : String → SoapyURL) (env : Env)
    (s s2 : EndpointState) (op : EndpointOp)
    (h : applyOp parseURL env s op = some s2) :
    s2.shared.serviceRegistered = (s.shared.serviceRegistered || isRegisterOp op) ∧
    initialShared.serviceRegistered = false := by
  refine ⟨?_, rfl⟩
  cases op with
  | opRegisterService u sv =>
    simp only [applyOp, Option.some.injEq] at h
    rw [← h]
    simp [registerService, isRegisterOp]
  | opEnablePeriodicSearch e now =>
    simp only [applyOp, Option.some.injEq] at h
    rw [← h]
    simp [enablePeriodicSearch, isRegisterOp]
  | opEnablePeriodicNotify e now =>
    simp only [applyOp, Option.some.injEq] at h
    rw [← h]
    simp [enablePeriodicNotify, isRegisterOp]
  | opGetServerURLs v only =>
    simp only [applyOp, Option.some.injEq] at h
    rw [← h]
    simp [isRegisterOp]
  | opHandlerIteration i inc now =>
    simp only [applyOp] at h
    split at h
    · simp only [Option.some.injEq] at h
      rw [← h]
      simp [isRegisterOp]
    · split at h
      · exact absurd h (by simp)
      · simp only [Option.some.injEq] at h
        rw [← h]
        simp [isRegisterOp]

/-- C10 witness: registering a service from the freshly constructed state
flips the flag to true, matching the or with the registering operation. -/
theorem serviceRegistered_monotone_witness :
    (({ shared := registerService initialShared "U" "9999",
        handlers := [d0] } : EndpointState).shared.serviceRegistered =
      (({ shared := initialShared, handlers := [d0] } : EndpointState).shared.serviceRegistered ||
        isRegisterOp (EndpointOp.opRegisterService "U" "9999"))) ∧
    initialShared.serviceRegistered = false :=
  serviceRegistered_monotone parseURL0 env0
    { shared := initialShared, handlers := [d0] }
    { shared := registerService initialShared "U" "9999", handlers := [d0] }
    (EndpointOp.opRegisterService "U" "9999") (by decide)

/-- C4: an incoming search request is ignored unless a service is
registered, the MAN field equals the quoted discover token and the ST field
equals the wildcard, the well-known target, or the local identity qualified
with the uuid marker; when every filter passes, a unicast 200 OK response
carrying the well-known target, the local locator and the local USN goes
back to the source address, and a multicast alive announcement with the
same USN goes to the group. -/
theorem handleSearchRequest_spec (parseURL : String → SoapyURL) (st : SharedState)
    (env : Env) (d : HandlerData) (request : SoapyHTTPHeader) (recvAddr : String)
    (now : Int) :
    (¬(st.serviceRegistered = true ∧ request.getField "MAN" = "\"ssdp:discover\"" ∧
        (request.getField "ST" = "ssdp:all" ∨
         request.getField "ST" = SOAPY_REMOTE_TARGET ∨
         request.getField "ST" = "uuid:" ++ st.uuid)) →
      handleSearchRequest parseURL st env d request recvAddr now = (d, [])) ∧
    (st.serviceRegistered = true → request.getField "MAN" = "\"ssdp:discover\"" →
      (request.getField "ST" = "ssdp:all" ∨
       request.getField "ST" = SOAPY_REMOTE_TARGET ∨
       request.getField "ST" = "uuid:" ++ st.uuid) →
      ∃ response notify : SoapyHTTPHeader,
        (handleSearchRequest parseURL st env d request recvAddr now).2 =
          [(response, recvAddr), (notify, d.groupURL)] ∧
        response.line0 = "HTTP/1.1 200 OK" ∧
        response.getField "ST" = SOAPY_REMOTE_TARGET ∧
        response.getField "LOCATION" = (SoapyURL.mk "tcp" env.hostName st.service).render ∧
        response.getField "USN" = "uuid:" ++ st.uuid ++ "::" ++ SOAPY_REMOTE_TARGET ∧
        notify.line0 = "NOTIFY * HTTP/1.1" ∧
        notify.getField "USN" = "uuid:" ++ st.uuid ++ "::" ++ SOAPY_REMOTE_TARGET ∧
        notify.getField "NTS" = NTS_ALIVE) := by
  constructor
  · intro h
    by_cases h1 : st.serviceRegistered = true
    · by_cases h2 : request.getField "MAN" = "\"ssdp:discover\""
      · by_cases h3 : (request.getField "ST" = "ssdp:all" ∨
            request.getField "ST" = SOAPY_REMOTE_TARGET ∨
            request.getField "ST" = "uuid:" ++ st.uuid)
        · exact absurd ⟨h1, h2, h3⟩ h
        · simp [handleSearchRequest, h1, h2, h3]
      · simp [handleSearchRequest, h1, h2]
    · simp [handleSearchRequest, h1]
  · intro h1 h2 h3
    have hmain : (handleSearchRequest parseURL st env d request recvAddr now).2 =
        [(SoapyHTTPHeader.mk "HTTP/1.1 200 OK"
            [("CACHE-CONTROL", "max-age=" ++ toString CACHE_DURATION_SECONDS),
             ("DATE", env.dateGMT), ("EXT", ""),
             ("LOCATION", (SoapyURL.mk "tcp" env.hostName st.service).render),
             ("SERVER", env.userAgent), ("ST", SOAPY_REMOTE_TARGET),
             ("USN", "uuid:" ++ st.uuid ++ "::" ++ SOAPY_REMOTE_TARGET)], recvAddr),
         (SoapyHTTPHeader.mk "NOTIFY * HTTP/1.1"
            ([("HOST", SoapyURL.render { parseURL d.groupURL with scheme := "" }),
              ("CACHE-CONTROL", "max-age=" ++ toString CACHE_DURATION_SECONDS),
              ("LOCATION", (SoapyURL.mk "tcp" env.hostName st.service).render),
              ("SERVER", env.userAgent), ("NT", SOAPY_REMOTE_TARGET),
              ("USN", "uuid:" ++ st.uuid ++ "::" ++ SOAPY_REMOTE_TARGET),
              ("NTS", NTS_ALIVE)]), d.groupURL)] := by
      simp [handleSearchRequest, sendNotifyHeader, h1, h2, h3, NTS_ALIVE]
    refine ⟨_, _, hmain, rfl, ?_, ?_, ?_, rfl, ?_, ?_⟩
    · rfl
    · rfl
    · rfl
    · rfl
    · rfl

/-- C4 witness: on a registered node, a well-formed search for the
well-known target from addrY draws the unicast response and the multicast
alive announcement with the qualified USN. -/
theorem handleSearchRequest_spec_witness :
    ∃ response notify : SoapyHTTPHeader,
      (handleSearchRequest parseURL0 (registerService initialShared "U" "9999")
        env0 d0 requestW "addrY" 0).2 =
        [(response, "addrY"), (notify, d0.groupURL)] ∧
      response.line0 = "HTTP/1.1 200 OK" ∧
      response.getField "ST" = SOAPY_REMOTE_TARGET ∧
      response.getField "LOCATION" =
        (SoapyURL.mk "tcp" env0.hostName
          (registerService initialShared "U" "9999").service).render ∧
      response.getField "USN" =
        "uuid:" ++ (registerService initialShared "U" "9999").uuid ++ "::" ++
          SOAPY_REMOTE_TARGET ∧
      notify.line0 = "NOTIFY * HTTP/1.1" ∧
      notify.getField "USN" =
        "uuid:" ++ (registerService initialShared "U" "9999").uuid ++ "::" ++
          SOAPY_REMOTE_TARGET ∧
      notify.getField "NTS" = NTS_ALIVE :=
  (handleSearchRequest_spec parseURL0 (registerService initialShared "U" "9999")
    env0 d0 requestW "addrY" 0).2 (by decide) (by decide)
    (Or.inr (Or.inl (by decide)))

/-- C5 counterexample: the claim states every entry a query returns has
expiry strictly after now at query time.  An alive announcement with
max-age 10 received at time 0 caches an entry expiring at 10; the sweep of
the iteration at time 5 keeps it; yet the query applies no time filter, so
at query time 11 it still returns the expired locator, whose expiry 10 is
not strictly after 11. -/
theorem query_returns_expired_entry :
    handleNotifyRequest parseURL0 d0 hdrMax10 "1.2.3.4" 0 = some dExp ∧
    (loopTail parseURL0 initialShared env0 dExp 5).1.usnToURL = dExp.usnToURL ∧
    getServerURLs [dExp] 4 true = ["tcp://1.2.3.4:1900"] ∧
    ¬((10 : Int) > 11) :=
  ⟨by decide, by decide, by decide, by decide⟩

/-- C5 amended: the per-iteration sweep removes exactly the entries whose
expiry is not strictly after the sweep time; the query itself applies no
time filter, so what holds is that every locator returned over caches swept
at time t comes from an entry whose expiry is strictly after t — the most
recent sweep time, not necessarily the query time. -/
theorem sweep_exact_and_query_unfiltered :
    (∀ (c : Cache) (t : Int) (p : String × String × Int),
      p ∈ sweepCache c t ↔ p ∈ c ∧ p.2.2 > t) ∧
    (∀ (hs : List HandlerData) (v : Nat) (only : Bool) (t : Int) (url : String),
      url ∈ getServerURLs
        (hs.map (fun d => { d with usnToURL := sweepCache d.usnToURL t })) v only →
      ∃ d ∈ hs, ∃ usn exp, (usn, url, exp) ∈ d.usnToURL ∧ exp > t) := by
  constructor
  · intro c t p
    simp [sweepCache, List.mem_filter]
  · intro hs v only t url hmem
    simp only [getServerURLs, mergedMap, List.mem_map] at hmem
    obtain ⟨p, hp, hurl⟩ := hmem
    rcases mem_mergedMap_aux hp with h1 | h1
    · simp at h1
    · obtain ⟨d2, hd2, hpd⟩ := h1
      rcases List.mem_map.mp hd2 with ⟨d, hd, hdeq⟩
      rw [← hdeq] at hpd
      have hsw : p ∈ d.usnToURL ∧ p.2.2 > t := by
        simpa [sweepCache, List.mem_filter] using hpd
      obtain ⟨usn, u2, exp⟩ := p
      refine ⟨d, hd, usn, exp, ?_, hsw.2⟩
      rw [← hurl]
      exact hsw.1

/-- C5 witness: the sweep characterization at the cached u1 entry and the
post-sweep expiry bound at sweep time 5 over the concrete handler. -/
theorem sweep_exact_and_query_unfiltered_witness :
    (("u1", ("tcp://1.2.3.4:1900", (10 : Int))) ∈ sweepCache dExp.usnToURL 5 ↔
      ("u1", ("tcp://1.2.3.4:1900", (10 : Int))) ∈ dExp.usnToURL ∧ (10 : Int) > 5) ∧
    ∃ d ∈ [dExp], ∃ usn exp, (usn, "tcp://1.2.3.4:1900", exp) ∈ d.usnToURL ∧
      exp > (5 : Int) :=
  ⟨sweep_exact_and_query_unfiltered.1 dExp.usnToURL 5
     ("u1", ("tcp://1.2.3.4:1900", (10 : Int))),
   sweep_exact_and_query_unfiltered.2 [dExp] 4 true 5 "tcp://1.2.3.4:1900"
     (by decide)⟩

/-- C6: with only set, getServerURLs returns exactly the locator strings of
the family-matching handler caches: nothing when no handler matches, and
precisely the matching handler values when one does; without only it keeps
one binding per USN across all handlers, prefers the family-matching
binding whenever the same USN is cached by several handlers, covers every
USN seen by any handler, and returns only locator strings drawn from
handler cache entries, never USNs. -/
theorem getServerURLs_family_spec :
    (∀ (v : Nat) (hs : List HandlerData), (∀ d ∈ hs, d.ipVer ≠ v) →
      getServerURLs hs v true = []) ∧
    (∀ (v : Nat) (pre post : List HandlerData) (m : HandlerData), m.ipVer = v →
      (∀ d ∈ pre, d.ipVer ≠ v) → (∀ d ∈ post, d.ipVer ≠ v) → keysNodup m.usnToURL →
      ((∀ url, url ∈ getServerURLs (pre ++ m :: post) v true ↔
          ∃ usn exp, (usn, url, exp) ∈ m.usnToURL) ∧
       (∀ usn url exp, (usn, url, exp) ∈ m.usnToURL →
          lookupUSN (mergedMap (pre ++ m :: post) v false) usn = some (url, exp) ∧
          url ∈ getServerURLs (pre ++ m :: post) v false))) ∧
    (∀ (v : Nat) (only : Bool) (hs : List HandlerData),
      keysNodup (mergedMap hs v only)) ∧
    (∀ (v : Nat) (hs : List HandlerData) (usn : String),
      (∃ d ∈ hs, usn ∈ cacheKeys d.usnToURL) →
      hasKey (mergedMap hs v false) usn = true) ∧
    (∀ (v : Nat) (only : Bool) (hs : List HandlerData) (url : String),
      url ∈ getServerURLs hs v only →
      ∃ d ∈ hs, ∃ usn exp, (usn, url, exp) ∈ d.usnToURL) := by
  refine ⟨?_, ?_, ?_, ?_, ?_⟩
  · intro v hs h
    simp [getServerURLs, mergedMap, foldl_skip_all h]
  · intro v pre post m hm hpre hpost hnd
    have hmatch : (decide (m.ipVer = v)) = true := by simp [hm]
    have hstep_true : mergeStep v true [] m = mergeInner true [] m.usnToURL := by
      simp [mergeStep, hmatch]
    have hex : mergedMap (pre ++ m :: post) v true = mergeInner true [] m.usnToURL := by
      simp only [mergedMap, List.foldl_append, List.foldl_cons]
      rw [foldl_skip_all hpre, hstep_true, foldl_skip_all hpost]
    constructor
    · intro url
      constructor
      · intro hmem
        simp only [getServerURLs, hex, List.mem_map] at hmem
        obtain ⟨p, hp, hurl⟩ := hmem
        rcases mem_mergeInner hp with h1 | h1
        · simp at h1
        · obtain ⟨usn, u2, exp⟩ := p
          refine ⟨usn, exp, ?_⟩
          rw [← hurl]
          exact h1
      · rintro ⟨usn, exp, hmem⟩
        have hl : lookupUSN (mergeInner true [] m.usnToURL) usn = some (url, exp) :=
          lookupUSN_mergeInner_match hnd hmem
        have hm2 := lookupUSN_mem hl
        simp only [getServerURLs, hex, List.mem_map]
        exact ⟨(usn, url, exp), hm2, rfl⟩
    · intro usn url exp hmem
      have hstep_false : ∀ acc, mergeStep v false acc m = mergeInner true acc m.usnToURL := by
        intro acc
        simp [mergeStep, hmatch]
      have hfold : mergedMap (pre ++ m :: post) v false =
          List.foldl (mergeStep v false)
            (mergeInner true (List.foldl (mergeStep v false) [] pre) m.usnToURL) post := by
        simp only [mergedMap, List.foldl_append, List.foldl_cons, hstep_false]
      have hl1 : lookupUSN
          (mergeInner true (List.foldl (mergeStep v false) [] pre) m.usnToURL) usn =
          some (url, exp) :=
        lookupUSN_mergeInner_match hnd hmem
      have hl2 : lookupUSN (mergedMap (pre ++ m :: post) v false) usn = some (url, exp) := by
        rw [hfold]
        exact lookupUSN_foldl_nonmatch hpost hl1
      refine ⟨hl2, ?_⟩
      have hm2 := lookupUSN_mem hl2
      simp only [getServerURLs, List.mem_map]
      exact ⟨(usn, url, exp), hm2, rfl⟩
  · intro v only hs
    simp only [mergedMap]
    exact keysNodup_mergedMap_aux (by simp [keysNodup, cacheKeys])
  · intro v hs usn h
    simp only [mergedMap]
    exact hasKey_foldl_of_mem h
  · intro v only hs url hmem
    simp only [getServerURLs, mergedMap, List.mem_map] at hmem
    obtain ⟨p, hp, hurl⟩ := hmem
    rcases mem_mergedMap_aux hp with h1 | h1
    · simp at h1
    · obtain ⟨d, hd, hpd⟩ := h1
      obtain ⟨usn, u2, exp⟩ := p
      refine ⟨d, hd, usn, exp, ?_⟩
      rw [← hurl]
      exact hpd

/-- C6 witness: with the IPv4 and IPv6 handlers both caching u1, the merged
non-exclusive view for family 4 holds the IPv4 binding of u1 and the query
returns its locator. -/
theorem getServerURLs_family_spec_witness :
    lookupUSN (mergedMap ([] ++ dExp :: [d6]) 4 false) "u1" =
      some ("tcp://1.2.3.4:1900", 10) ∧
    "tcp://1.2.3.4:1900" ∈ getServerURLs ([] ++ dExp :: [d6]) 4 false :=
  (getServerURLs_family_spec.2.1 4 [] [d6] dExp (by decide)
    (by intro d hd; simp at hd) (by decide)
    (by simp [keysNodup, cacheKeys, dExp])).2
    "u1" "tcp://1.2.3.4:1900" 10 (by decide)

end SoapySSDP
